import Mathlib

/-
  Verification of the DataTransferKit rendezvous engine and shared-domain map
  (DTK_Rendezvous_def.hpp, DTK_SharedDomainMap_def.hpp) against their
  natural-language specification.

  Shallow embedding conventions:
  * GlobalOrdinal is embedded as Int.  The repository instantiates its ordinal
    template parameters with the C type int (see the test and example drivers),
    so the invalid-element sentinel std::numeric_limits of GlobalOrdinal max
    is 2^31 - 1.
  * double is embedded as the exact rationals: none of the checked properties
    hinges on floating-point rounding, only on the algebraic structure of the
    computations.
  * Teuchos/Tpetra collectives (distributors, importers, reductions) are
    external library collaborators; their documented behaviour is supplied
    through explicit parameters (payload lists, per-rank size lists, export
    plans) rather than re-implemented.
-/

set_option maxRecDepth 1000

namespace DTK

/-- The invalid-element sentinel std::numeric_limits of GlobalOrdinal max for
the int ordinal instantiation of the repository. -/
def ordinalMax : Int := 2 ^ 31 - 1

/-- The six box bounds of a DTK BoundingBox (Teuchos Tuple of six doubles):
indices 0,1,2 are the lower x,y,z faces and 3,4,5 the upper x,y,z faces. -/
def BoxBounds : Type := Nat → ℚ

/-- Modelled from the spec: BoundingBox pointInBox (DTK_BoundingBox is not
under src/).  Point-in-box uses closed intervals on every axis of the given
dimension. -/
def pointInBox (dim : Nat) (b : BoxBounds) (p : List ℚ) : Bool :=
  (List.range dim).all fun d =>
    decide (b d ≤ p.getD d 0) && decide (p.getD d 0 ≤ b (d + 3))

/-- The fixed expansion tolerance of Rendezvous getMeshInBox:
double tol = 1.0e-4. -/
def tolExpand : ℚ := 1 / 10000

/-- The exponent computed by getMeshInBox: double pow = 1 / d_dimension.
Both operands are of C type int, so this is integer division: 1 for
dimension 1 and 0 for dimensions 2 and 3. -/
def codeExponent (dim : Nat) : Nat := 1 / dim

/-- typical_length of getMeshInBox: std pow of (box_volume divided by
global_num_elements) with the integer-division exponent. -/
def typicalLength (ratio : ℚ) (dim : Nat) : ℚ := ratio ^ codeExponent dim

/-- The face-shifting loop of getMeshInBox: for d below the dimension,
box_bounds[d] -= shift and box_bounds[d+3] += shift. -/
def expandBounds (dim : Nat) (shift : ℚ) (b : BoxBounds) : BoxBounds :=
  fun i =>
    if i < dim then b i - shift
    else if 3 ≤ i ∧ i < 3 + dim then b i + shift
    else b i

/-- The enlarged box written back into d_global_box by getMeshInBox.
box_volume and global_num_elements arrive as parameters: BoundingBox volume
and MeshManager globalNumElements are external collaborators. -/
def enlargedBox (dim : Nat) (boxVolume numElems : ℚ) (b : BoxBounds) : BoxBounds :=
  expandBounds dim (typicalLength (boxVolume / numElems) dim + tolExpand) b

/-- The rendezvous engine state relevant to the stored global box. -/
structure RendezvousState where
  dimension : Nat
  globalBox : BoxBounds

/-- getMeshInBox overwrites d_global_box in place with the enlarged box
(d_global_box = BoundingBox(box_bounds)). -/
def getMeshInBoxBoxUpdate (boxVolume numElems : ℚ) (st : RendezvousState) :
    RendezvousState :=
  { st with globalBox := enlargedBox st.dimension boxVolume numElems st.globalBox }

/-- Rendezvous build runs getMeshInBox exactly when the mesh manager is
non-null. -/
def buildBoxState (meshNonNull : Bool) (boxVolume numElems : ℚ)
    (st : RendezvousState) : RendezvousState :=
  if meshNonNull then getMeshInBoxBoxUpdate boxVolume numElems st else st

/-- Rendezvous getBox returns the stored d_global_box. -/
def getBox (st : RendezvousState) : BoxBounds := st.globalBox

/-- One mesh block as consumed by getMeshInBox and elementsInGeometry, read
through the mesh-traits facade: blocked coordinates coords[d * numVertices + n]
and blocked connectivity conn[i * numElements + n] holding vertex global ids. -/
structure MeshBlock where
  numVertices : Nat
  numElements : Nat
  vertsPerElem : Nat
  vertexGids : List Int
  elementGids : List Int
  coords : List ℚ
  connectivity : List Int

/-- The coordinates of vertex n of a block in the blocked layout
coords[d * numVertices + n]. -/
def vertexCoordsOf (dim : Nat) (blk : MeshBlock) (n : Nat) : List ℚ :=
  (List.range dim).map fun d => blk.coords.getD (d * blk.numVertices + n) 0

/-- The vertex_indices hash map of getMeshInBox maps each vertex global id to
its position in the vertex array; with the unique vertex ids of the data model
this is List.indexOf on the gid array.  It also models the
getLocalVertexId of the mesh manager used by elementsInGeometry (DTK_MeshManager is not under
src/), which performs the same gid-to-position inversion. -/
def vertexIndexOf (blk : MeshBlock) (gid : Int) : Nat :=
  blk.vertexGids.indexOf gid

/-- The vertex positions of element n obtained through the connectivity view
and the vertex_indices map: conn[i * numElements + n] for each local vertex i. -/
def elemVertexIndices (blk : MeshBlock) (n : Nat) : List Nat :=
  (List.range blk.vertsPerElem).map fun i =>
    vertexIndexOf blk (blk.connectivity.getD (i * blk.numElements + n) 0)

/-- The initial vertices_in_box bitmap of getMeshInBox: one pointInBox test
per vertex against the (already enlarged) stored global box. -/
def initialVerticesInBox (dim : Nat) (b : BoxBounds) (blk : MeshBlock) : List Bool :=
  (List.range blk.numVertices).map fun n => pointInBox dim b (vertexCoordsOf dim blk n)

/-- The halo pull-in of getMeshInBox for one active element: every vertex it
connects is marked active (vertices_in_box[vertex_index] = 1). -/
def markVertsActive (idxs : List Nat) (vib : List Bool) : List Bool :=
  idxs.foldl (fun v i => v.set i true) vib

/-- The element loop of getMeshInBox, in element order: each element is judged
active when any of its vertices is active in the current vertices_in_box
state, and, immediately when active, all of its vertices are marked active in
that same state before the next element is judged. -/
def elementsLoop (blk : MeshBlock) : List Nat → List Bool → List Bool × List Bool
  | [], vib => ([], vib)
  | n :: rest, vib =>
    let a := (elemVertexIndices blk n).any fun i => vib.getD i false
    let vib2 := if a then markVertsActive (elemVertexIndices blk n) vib else vib
    ((a :: (elementsLoop blk rest vib2).1), (elementsLoop blk rest vib2).2)

/-- The per-block activity pass of getMeshInBox: returns the final
vertices_in_box and the elements_in_box bitmaps handed to
setActiveVertices / setActiveElements. -/
def blockActivity (dim : Nat) (b : BoxBounds) (blk : MeshBlock) :
    List Bool × List Bool :=
  let vib0 := initialVerticesInBox dim b blk
  let r := elementsLoop blk (List.range blk.numElements) vib0
  (r.2, r.1)

/-- The vertices_in_box state after the first k elements of the block have
been processed. -/
def vibAfter (dim : Nat) (b : BoxBounds) (blk : MeshBlock) (k : Nat) : List Bool :=
  (elementsLoop blk (List.range k) (initialVerticesInBox dim b blk)).2

/-- Modelled from the spec: TopologyTools elementInGeometry
(DTK_TopologyTools is not under src/).  With all_vertices_for_inclusion the
element belongs to the geometry when every supplied node coordinate lies in
it within tolerance, otherwise when any one does; the geometry together with
its tolerance is abstracted into the point predicate. -/
def elementInGeometry (inGeom : List ℚ → Bool) (nodeCoords : List (List ℚ))
    (allVerts : Bool) : Bool :=
  if allVerts then nodeCoords.all inGeom else nodeCoords.any inGeom

/-- The node-coordinate extraction of Rendezvous elementsInGeometry for one
element: for each of the given number of local vertices, the connectivity
entry conn[n * numElements + e] is mapped to its local id and its blocked
coordinates coords[numVertices * d + lid] are gathered.  The code sizes this
loop with block_verts_per_elem, a local initialised to 0 and never
reassigned. -/
def extractNodeCoords (dim vpe : Nat) (blk : MeshBlock) (e : Nat) :
    List (List ℚ) :=
  (List.range vpe).map fun n =>
    (List.range dim).map fun d =>
      blk.coords.getD
        (blk.numVertices * d +
          vertexIndexOf blk (blk.connectivity.getD (n * blk.numElements + e) 0)) 0

/-- One block of the element loop of elementsInGeometry for one geometry: the
elements whose extracted node coordinates pass the inclusion test, in element
order, reported by their global ids. -/
def blockElementsInGeometry (dim vpe : Nat) (inGeom : List ℚ → Bool)
    (allVerts : Bool) (blk : MeshBlock) : List Int :=
  (List.range blk.numElements).filterMap fun e =>
    if elementInGeometry inGeom (extractNodeCoords dim vpe blk e) allVerts
    then some (blk.elementGids.getD e 0) else none

/-- Rendezvous elementsInGeometry as written: because block_verts_per_elem is
initialised to 0 and never set from the traits, every element contributes an
empty node-coordinate list to the inclusion test. -/
def elementsInGeometryCode (dim : Nat) (geoms : List (List ℚ → Bool))
    (allVerts : Bool) (blocks : List MeshBlock) : List (List Int) :=
  geoms.map fun g =>
    (blocks.map fun blk => blockElementsInGeometry dim 0 g allVerts blk).flatten

/-- Point n of a blocked coordinate list: coords[d * numPoints + n] for each
dimension d. -/
def pointAt (dim : Nat) (coords : List ℚ) (numPoints n : Nat) : List ℚ :=
  (List.range dim).map fun d => coords.getD (d * numPoints + n) 0

/-- Rendezvous elementsContainingPoints.  findPoint models the
ElementTree findPoint query (DTK_ElementTree is not under src/): it returns
the first element confirmed to contain the point within tolerance, if any.
srcProcOf models the d_element_src_procs_map lookup.  Both output arrays are
sized to the point count size / dimension; a found point records the element
ordinal and its source proc, a missed point records the invalid ordinal and
source proc -1. -/
def elementsContainingPoints (dim : Nat) (findPoint : List ℚ → Option Int)
    (srcProcOf : Int → Int) (coords : List ℚ) : List Int × List Int :=
  (((List.range (coords.length / dim)).map fun n =>
      match findPoint (pointAt dim coords (coords.length / dim) n) with
      | some e => e
      | none => ordinalMax),
   ((List.range (coords.length / dim)).map fun n =>
      match findPoint (pointAt dim coords (coords.length / dim) n) with
      | some e => srcProcOf e
      | none => -1))

/-- The not_in_mesh index scan of SharedDomainMap setup after the rendezvous
search: the indices whose returned element equals -1 (the test written in the code), in
ascending order. -/
def notInMeshIdxs (elems : List Int) : List Nat :=
  (List.range elems.length).filter fun i => elems.getD i 0 = -1

/-- The missed-point ordinal collection of setup when store_missed_points is
set: for every index whose returned element equals -1, the rendezvous point
ordinal at that index. -/
def missedInMeshOrdinals (store : Bool) (elems points : List Int) : List Int :=
  if store then
    (List.range elems.length).filterMap fun i =>
      if elems.getD i 0 = -1 then some (points.getD i 0) else none
  else []

/-- Teuchos Array remove at one index. -/
def removeAt (l : List Int) (i : Nat) : List Int := l.take i ++ l.drop (i + 1)

/-- Removal of a reversed (descending) index list, as setup performs on
rendezvous_points with the reversed not_in_mesh list. -/
def removeIdxsDescending (l : List Int) (idxs : List Nat) : List Int :=
  idxs.foldl removeAt l

/-- Teuchos Array resize: truncate or pad with default-initialised entries. -/
def resizeTo (l : List Int) (n : Nat) : List Int :=
  l.take n ++ List.replicate (n - l.length) 0

/-- The post-search filtering of SharedDomainMap setup: rendezvous_points
loses the not_in_mesh positions, std::remove of -1 followed by resize
compacts rendezvous_elements and rendezvous_element_src_procs (composite
effect: keep the entries different from -1, in order), rendezvous_points is
resized to the compacted element count, and testInvariant compares the two
compacted sizes.  Returns (elements, src procs, points, invariant holds). -/
def filterSearchResults (elems srcProcs points : List Int) :
    List Int × List Int × List Int × Bool :=
  let elems2 := elems.filter fun e => e != -1
  let procs2 := srcProcs.filter fun p => p != -1
  let pts := resizeTo (removeIdxsDescending points (notInMeshIdxs elems).reverse)
    elems2.length
  (elems2, procs2, pts, decide (elems2.length = procs2.length))

/-- The rendezvous-to-source shipment of setup: the distributor is created
from the compacted source-proc list and posts one entry of each export view
per send, so the first procs-many entries of the element and point arrays are
the shipped payload. -/
def rendezvousToSourcePayload (elems srcProcs points : List Int) :
    List Int × List Int :=
  match filterSearchResults elems srcProcs points with
  | (es, procs, pts, _) => (es.take procs.length, pts.take procs.length)

/-- The REDUCE_MAX all-reduce of computePointOrdinals over the local point
counts of every rank of the parent communicator. -/
def globalMaxSize (sizes : List Nat) : Nat := sizes.foldr max 0

/-- Reduction of an exact integer to the 32-bit twos-complement value the
int ordinal instantiation of the repository stores. -/
def intWrap (x : Int) : Int := (x + 2 ^ 31) % 2 ^ 32 - 2 ^ 31

/-- The ordinal assigned by computePointOrdinals to local point n of rank r:
comm_rank * global_size + n, evaluated in GlobalOrdinal — the C type int in
this repository — so the arithmetic wraps.  Each int operation wraps
individually, and since every wrap is congruent to the exact value modulo
2^32, wrapping the exact sum once is the same value. -/
def targetOrdinal (sizes : List Nat) (r n : Nat) : Int :=
  intWrap ((r : Int) * (globalMaxSize sizes : Int) + (n : Int))

/-- SharedDomainMap computePointOrdinals on rank r: one ordinal per local
target point of that rank. -/
def computePointOrdinals (sizes : List Nat) (r : Nat) : List Int :=
  (List.range (sizes.getD r 0)).map fun n => targetOrdinal sizes r n

/-- The plan arrays persisted by setup. -/
structure SharedDomainPlan where
  sourceElements : List Int
  targetCoords : List ℚ

/-- The source-side tail of setup: d_source_elements is resized to the
count imported by the distributor and filled with the received element ids;
d_target_coords is resized to that count times the coordinate dimension and
filled by the rendezvous-to-source coordinate export (values abstracted). -/
def finishSourcePlan (coordDim : Nat) (importedElements : List Int)
    (coordAt : Nat → ℚ) : SharedDomainPlan :=
  { sourceElements := importedElements
    targetCoords :=
      (List.range (importedElements.length * coordDim)).map coordAt }

/-- A Tpetra INSERT-mode export into a target buffer: each plan entry copies
source slot w.1 into target slot w.2. -/
def doExportInsert (plan : List (Nat × Nat)) (source target : List ℚ) : List ℚ :=
  plan.foldl (fun buf w => buf.set w.2 (source.getD w.1 0)) target

/-- The persisted state of a SharedDomainMap after setup: the plan arrays,
the two ordinal maps and the source-to-target exporter (its transfer plan as
source-slot / target-slot pairs). -/
structure MapState where
  sourceElements : List Int
  targetCoords : List ℚ
  sourceMapIds : List Int
  targetMapIds : List Int
  exportPlan : List (Nat × Nat)

/-- SharedDomainMap apply: evaluate the source field at
(d_source_elements, d_target_coords), zero the whole target buffer
(putScalar 0.0), then export the evaluations along the prebuilt plan with
INSERT.  The method assigns no member of the map, which the embedding states
by returning the state unchanged beside the new target buffer. -/
def applyShared (st : MapState) (evalF : List Int → List ℚ → List ℚ)
    (target : List ℚ) : MapState × List ℚ :=
  let vals := evalF st.sourceElements st.targetCoords
  let zeroed := List.replicate target.length (0 : ℚ)
  (st, doExportInsert st.exportPlan vals zeroed)

/-- Concrete rendezvous state for the C10 witness. -/
def rvStA : RendezvousState := { dimension := 2, globalBox := fun _ => 0 }

/-- Base box for the C4 counterexample: the interval from 0 to 1 on axis 0. -/
def baseBoxC4 : BoxBounds := fun i => if i = 3 then 1 else 0

/-- Enlarged box for the C4 counterexample, as getMeshInBox computes it in one
dimension from box volume 1 and 10000 global elements. -/
def enlBoxC4 : BoxBounds := enlargedBox 1 1 10000 baseBoxC4

/-- One-dimensional block for the C4 counterexample: vertices at 1/2, 5 and 6,
element 0 on vertices 0 and 1, element 1 on vertices 1 and 2. -/
def blkC4 : MeshBlock :=
  { numVertices := 3
    numElements := 2
    vertsPerElem := 2
    vertexGids := [20, 21, 22]
    elementGids := [30, 31]
    coords := [1/2, 5, 6]
    connectivity := [20, 21, 21, 22] }

/-- Geometry predicate for the C3 failing input: the points with first
coordinate at most 1. -/
def geomA : List ℚ → Bool := fun p => decide (p.getD 0 0 ≤ 1)

/-- One-element block for the C3 failing input: element 17 has one vertex at
0 (inside the geometry) and one at 5 (outside). -/
def blkC3 : MeshBlock :=
  { numVertices := 2
    numElements := 1
    vertsPerElem := 2
    vertexGids := [10, 11]
    elementGids := [17]
    coords := [0, 5]
    connectivity := [10, 11] }

/-- One-element block for the C3 failing input, all-vertices mode: element 18
has both vertices (at 4 and 5) outside the geometry. -/
def blkC3b : MeshBlock :=
  { numVertices := 2
    numElements := 1
    vertsPerElem := 2
    vertexGids := [10, 11]
    elementGids := [18]
    coords := [4, 5]
    connectivity := [10, 11] }

/-- Concrete findPoint oracle for the C6 witness: points with first
coordinate at most 1 are confirmed in element 3, all others miss. -/
def fpA : List ℚ → Option Int := fun p => if p.getD 0 0 ≤ 1 then some 3 else none

/-- Concrete source-proc map for the C6 witness. -/
def spA : Int → Int := fun _ => 9

/-- Concrete map state for the C8 witness: the exporter writes only target
slot 1. -/
def stC8 : MapState :=
  { sourceElements := [4]
    targetCoords := [0]
    sourceMapIds := [7]
    targetMapIds := [7, 8, 9]
    exportPlan := [(0, 1)] }

/- ------------------------------------------------------------------ -/
/- Helper lemmas.                                                      -/
/- ------------------------------------------------------------------ -/

/-- List.set can only turn entries true here: a true entry stays true. -/
theorem getD_set_true_mono (v : List Bool) (j i : Nat)
    (h : v.getD i false = true) : (v.set j true).getD i false = true := by
  simp only [List.getD] at h ⊢
  by_cases hij : i = j
  · subst hij
    by_cases hlen : i < v.length
    · simp [List.get?_set_eq_of_lt, hlen]
    · rw [List.set_eq_of_length_le (by omega)]
      exact h
  · rw [List.get?_set_ne true v (Ne.symm hij)]
    exact h

/-- Entries away from the written index are unchanged by List.set. -/
theorem getD_set_ne {α : Type} (a d : α) (v : List α) (j i : Nat)
    (hij : i ≠ j) : (v.set j a).getD i d = v.getD i d := by
  simp only [List.getD]
  rw [List.get?_set_ne a v (Ne.symm hij)]

/-- The halo pull-in never clears a vertex activity bit. -/
theorem markVertsActive_mono (idxs : List Nat) (v : List Bool) (i : Nat)
    (h : v.getD i false = true) :
    (markVertsActive idxs v).getD i false = true := by
  induction idxs generalizing v with
  | nil => exact h
  | cons j rest ih =>
      exact ih (v.set j true) (getD_set_true_mono v j i h)

/-- The element loop never clears a vertex activity bit. -/
theorem elementsLoop_vib_mono (blk : MeshBlock) (l : List Nat) (v : List Bool)
    (i : Nat) (h : v.getD i false = true) :
    (elementsLoop blk l v).2.getD i false = true := by
  induction l generalizing v with
  | nil => exact h
  | cons n rest ih =>
      simp only [elementsLoop]
      by_cases ha : ((elemVertexIndices blk n).any fun j => v.getD j false) = true
      · rw [if_pos ha]
        exact ih _ (markVertsActive_mono _ v i h)
      · rw [if_neg ha]
        exact ih v h

/-- The element loop over a concatenation: the decisions concatenate and the
second run starts from the state the first run produced. -/
theorem elementsLoop_append (blk : MeshBlock) (l₁ l₂ : List Nat) (v : List Bool) :
    elementsLoop blk (l₁ ++ l₂) v =
      ((elementsLoop blk l₁ v).1 ++ (elementsLoop blk l₂ (elementsLoop blk l₁ v).2).1,
       (elementsLoop blk l₂ (elementsLoop blk l₁ v).2).2) := by
  induction l₁ generalizing v with
  | nil => simp [elementsLoop]
  | cons n rest ih => simp [elementsLoop, ih]

/-- The element loop produces one decision per processed element. -/
theorem elementsLoop_fst_length (blk : MeshBlock) (l : List Nat) (v : List Bool) :
    (elementsLoop blk l v).1.length = l.length := by
  induction l generalizing v with
  | nil => rfl
  | cons n rest ih => simp [elementsLoop, ih]

/-- Reading below the length of a mapped range picks the mapped value. -/
theorem getD_map_range {α : Type} (f : Nat → α) (N n : Nat) (hn : n < N)
    (d : α) : ((List.range N).map f).getD n d = f n := by
  simp only [List.getD]
  rw [List.get?_map, List.get?_range hn]
  rfl

/-- Every per-rank size is bounded by the REDUCE_MAX result. -/
theorem getD_le_globalMaxSize (sizes : List Nat) (r : Nat) :
    sizes.getD r 0 ≤ globalMaxSize sizes := by
  induction sizes generalizing r with
  | nil => simp [globalMaxSize]
  | cons a t ih =>
      cases r with
      | zero => exact le_max_left a (globalMaxSize t)
      | succ r =>
          exact le_trans (ih r) (le_max_right a (globalMaxSize t))

/-- An INSERT export preserves the target buffer length. -/
theorem doExportInsert_length (plan : List (Nat × Nat)) (source target : List ℚ) :
    (doExportInsert plan source target).length = target.length := by
  induction plan generalizing target with
  | nil => rfl
  | cons w rest ih =>
      simp only [doExportInsert, List.foldl_cons] at ih ⊢
      rw [ih, List.length_set]

/-- Slots the export plan never writes keep their previous contents. -/
theorem doExportInsert_getD_not_written (plan : List (Nat × Nat))
    (source target : List ℚ) (s : Nat) (hs : s ∉ plan.map Prod.snd) :
    (doExportInsert plan source target).getD s 0 = target.getD s 0 := by
  induction plan generalizing target with
  | nil => rfl
  | cons w rest ih =>
      simp only [List.map_cons, List.mem_cons] at hs
      push_neg at hs
      simp only [doExportInsert, List.foldl_cons] at ih ⊢
      rw [ih _ hs.2, getD_set_ne _ _ _ _ _ hs.1]

/-- Reading a replicate-zero buffer gives zero. -/
theorem getD_replicate_zero (n s : Nat) :
    (List.replicate n (0 : ℚ)).getD s 0 = 0 := by
  induction n generalizing s with
  | zero => rfl
  | succ n ih =>
      cases s with
      | zero => rfl
      | succ s => exact ih s

/-- A value inside the int range is unchanged by the twos-complement wrap. -/
theorem intWrap_eq_self (x : Int) (h0 : 0 ≤ x) (h1 : x < 2 ^ 31) :
    intWrap x = x := by
  rw [intWrap, Int.emod_eq_of_lt (by omega) (by omega)]
  omega

/- ------------------------------------------------------------------ -/
/- Claim theorems.                                                     -/
/- ------------------------------------------------------------------ -/

/-- C1: the rendezvous search marks a miss with the invalid ordinal
ordinalMax, but the setup filter tests the element array against -1.  With
the signed int ordinals of the repository the two differ, so for a rank whose
search returned a miss at index 0 (ordinal 7) and a hit in element 42 owned
by proc 5 at index 1 (ordinal 8): no ordinal is recorded as missed, the
element and point arrays keep the sentinel entry while the source-proc array
alone is compacted, the testInvariant size comparison fails, and the
payload the distributor ships to source rank 5 is the sentinel-carrying pair
(ordinalMax, 7) rather than (42, 8) — refuting the claim that a missed point
is recorded and removed before the rendezvous-to-source shipment. -/
theorem C1_miss_sentinel_not_filtered :
    ordinalMax ≠ -1 ∧
    missedInMeshOrdinals true [ordinalMax, 42] [7, 8] = [] ∧
    filterSearchResults [ordinalMax, 42] [-1, 5] [7, 8] =
      ([ordinalMax, 42], [5], [7, 8], false) ∧
    rendezvousToSourcePayload [ordinalMax, 42] [-1, 5] [7, 8] =
      ([ordinalMax], [7]) := by
  refine ⟨by decide, by decide, by decide, by decide⟩

/-- C2: the exponent of the code is the integer quotient 1 / dimension, so in two
and three dimensions typical_length collapses to ratio to the zeroth power,
namely 1, instead of the claimed real-number root of the volume ratio.  At
dimension 2 with volume ratio 4 the code yields 1 while the real reciprocal
exponent would yield 2. -/
theorem C2_typical_length_uses_integer_division_exponent :
    codeExponent 1 = 1 ∧ codeExponent 2 = 0 ∧ codeExponent 3 = 0 ∧
    typicalLength ((16 : ℚ) / 4) 2 = 1 ∧
    ((2 : ℚ) ^ (2 : Nat) = (16 : ℚ) / 4 ∧ ((2 : ℚ) = 1 → False)) := by
  refine ⟨rfl, rfl, rfl, ?_, ?_, ?_⟩
  · norm_num [typicalLength, codeExponent]
  · norm_num
  · norm_num

/-- C3: elementsInGeometry sizes its node-coordinate extraction with the
local block_verts_per_elem, which is initialised to 0 and never set from the
mesh traits, so the inclusion test always sees an empty vertex list.  With
the any-vertex criterion, element 17 — whose true vertex at 0 lies in the
geometry, so the claim requires inclusion — is excluded; with the
all-vertices criterion, element 18 — none of whose true vertices lies in the
geometry, so the claim requires exclusion — is vacuously included. -/
theorem C3_verts_per_elem_never_assigned :
    extractNodeCoords 1 0 blkC3 0 = [] ∧
    elementInGeometry geomA (extractNodeCoords 1 blkC3.vertsPerElem blkC3 0)
      false = true ∧
    elementsInGeometryCode 1 [geomA] false [blkC3] = [[]] ∧
    elementInGeometry geomA (extractNodeCoords 1 blkC3b.vertsPerElem blkC3b 0)
      true = false ∧
    elementsInGeometryCode 1 [geomA] true [blkC3b] = [[18]] := by
  refine ⟨rfl, ?_, ?_, ?_, ?_⟩ <;>
    norm_num [elementInGeometry, extractNodeCoords, elementsInGeometryCode,
      blockElementsInGeometry, vertexIndexOf, geomA, blkC3, blkC3b,
      List.range_succ] <;> decide

/-- C4 counterexample: in getMeshInBox, element 1 of the block is marked
active although neither of its vertices lies in the enlarged box, because
element 0 is active and its halo pull-in marks shared vertex 1 active before
element 1 is judged; activity therefore cascades within the element pass,
refuting the claim that the halo pull-in happens only after the
activity of every element has been decided. -/
theorem C4_counterexample_halo_interleaved :
    pointInBox 1 enlBoxC4 (vertexCoordsOf 1 blkC4 1) = false ∧
    pointInBox 1 enlBoxC4 (vertexCoordsOf 1 blkC4 2) = false ∧
    elemVertexIndices blkC4 1 = [1, 2] ∧
    (blockActivity 1 enlBoxC4 blkC4).2 = [true, true] := by
  refine ⟨?_, ?_, ?_, ?_⟩ <;>
    norm_num [blockActivity, elementsLoop, initialVerticesInBox, blkC4,
      elemVertexIndices, vertexIndexOf, vertexCoordsOf, markVertsActive,
      pointInBox, enlBoxC4, enlargedBox, expandBounds, baseBoxC4,
      typicalLength, codeExponent, tolExpand, List.range_succ]

/-- C4 amended: an element is marked active exactly when one of its vertices
is active in the vertices_in_box state current at the moment the element is
processed, a state already updated by the halo pull-ins of the earlier active
elements of the block; in particular an element with a vertex whose coordinate
lies in the enlarged box is always marked active, but activity can also
cascade in from an earlier element through a shared vertex. -/
theorem C4_element_activity_uses_evolving_state (dim : Nat) (b : BoxBounds)
    (blk : MeshBlock) (n : Nat) (hn : n < blk.numElements) :
    ((blockActivity dim b blk).2.getD n false =
      (elemVertexIndices blk n).any fun i => (vibAfter dim b blk n).getD i false) ∧
    ((∃ i ∈ elemVertexIndices blk n,
        (initialVerticesInBox dim b blk).getD i false = true) →
      (blockActivity dim b blk).2.getD n false = true) := by
  obtain ⟨k, hk⟩ : ∃ k, blk.numElements - n = k + 1 :=
    ⟨blk.numElements - n - 1, by omega⟩
  have hdecomp : List.range blk.numElements =
      List.range n ++ n :: List.map (fun x => n + Nat.succ x) (List.range k) := by
    conv_lhs => rw [show blk.numElements = n + (blk.numElements - n) by omega]
    rw [List.range_add, hk, List.range_succ_eq_map]
    simp
  have hmain : (blockActivity dim b blk).2.getD n false =
      ((elemVertexIndices blk n).any fun i => (vibAfter dim b blk n).getD i false) := by
    show (elementsLoop blk (List.range blk.numElements)
        (initialVerticesInBox dim b blk)).1.getD n false = _
    rw [hdecomp, elementsLoop_append]
    simp only [List.getD]
    rw [List.get?_append_right
      (by rw [elementsLoop_fst_length, List.length_range])]
    rw [elementsLoop_fst_length, List.length_range, Nat.sub_self]
    simp only [elementsLoop]
    rfl
  refine ⟨hmain, fun hex => ?_⟩
  obtain ⟨i, hi, hinit⟩ := hex
  rw [hmain]
  rw [List.any_eq_true]
  exact ⟨i, hi, elementsLoop_vib_mono blk _ _ i hinit⟩

/-- Witness for the amended C4 at the counterexample block: element 0 has
vertex 0 inside the enlarged box, so it is marked active. -/
theorem C4_element_activity_uses_evolving_state_witness :
    (((blockActivity 1 enlBoxC4 blkC4).2.getD 0 false =
      (elemVertexIndices blkC4 0).any fun i =>
        (vibAfter 1 enlBoxC4 blkC4 0).getD i false) ∧
    ((∃ i ∈ elemVertexIndices blkC4 0,
        (initialVerticesInBox 1 enlBoxC4 blkC4).getD i false = true) →
      (blockActivity 1 enlBoxC4 blkC4).2.getD 0 false = true)) ∧
    (blockActivity 1 enlBoxC4 blkC4).2.getD 0 false = true := by
  have h := C4_element_activity_uses_evolving_state 1 enlBoxC4 blkC4 0
    (by norm_num [blkC4])
  refine ⟨h, h.2 ⟨0, ?_, ?_⟩⟩
  · norm_num [elemVertexIndices, vertexIndexOf, blkC4, List.range_succ]
  · norm_num [initialVerticesInBox, blkC4, vertexCoordsOf, pointInBox,
      enlBoxC4, enlargedBox, expandBounds, baseBoxC4,
      typicalLength, codeExponent, tolExpand, List.range_succ]

/-- C5 counterexample: with int ordinals the wrap of comm_rank * G + n can
collide.  With local counts [1, 0, 0, 0, 2^30] the all-reduced maximum G is
2^30; rank 4 holds 2^30 points and its point 0 is assigned
intWrap(4 * 2^30) = intWrap(2^32) = 0, the very ordinal of point 0 of rank 0
— two distinct target points with equal ordinals, refuting the unconditional
uniqueness of the claim. -/
theorem C5_counterexample_int_wrap :
    (0 : Nat) < List.getD [1, 0, 0, 0, 2 ^ 30] 0 0 ∧
    (0 : Nat) < List.getD [1, 0, 0, 0, 2 ^ 30] 4 0 ∧
    targetOrdinal [1, 0, 0, 0, 2 ^ 30] 0 0 = 0 ∧
    targetOrdinal [1, 0, 0, 0, 2 ^ 30] 4 0 = 0 := by
  refine ⟨?_, ?_, ?_, ?_⟩ <;>
    norm_num [targetOrdinal, globalMaxSize, intWrap, List.getD_cons_zero,
      List.getD_cons_succ]

/-- C5 amended: computePointOrdinals gives rank r the ordinals r*G + 0
through r*G + (n_r - 1), where G is the all-reduced maximum of the per-rank
local point counts, and any two distinct (rank, local index) target points
whose assigned values r*G + n lie within the int range — so that the
GlobalOrdinal arithmetic does not wrap — receive different ordinals. -/
theorem C5_target_ordinals_unique_within_int_range (sizes : List Nat)
    (r1 n1 r2 n2 : Nat) (h1 : n1 < sizes.getD r1 0) (h2 : n2 < sizes.getD r2 0)
    (hfit1 : r1 * globalMaxSize sizes + n1 < 2 ^ 31)
    (hfit2 : r2 * globalMaxSize sizes + n2 < 2 ^ 31)
    (hne : ¬ (r1 = r2 ∧ n1 = n2)) :
    (computePointOrdinals sizes r1).length = sizes.getD r1 0 ∧
    (computePointOrdinals sizes r1).getD n1 0 =
      (r1 : Int) * (globalMaxSize sizes : Int) + (n1 : Int) ∧
    targetOrdinal sizes r1 n1 ≠ targetOrdinal sizes r2 n2 := by
  have hG1 : n1 < globalMaxSize sizes :=
    lt_of_lt_of_le h1 (getD_le_globalMaxSize sizes r1)
  have hG2 : n2 < globalMaxSize sizes :=
    lt_of_lt_of_le h2 (getD_le_globalMaxSize sizes r2)
  have hb1 : (r1 : Int) * (globalMaxSize sizes : Int) + (n1 : Int) < 2 ^ 31 := by
    zify at hfit1
    exact hfit1
  have hb2 : (r2 : Int) * (globalMaxSize sizes : Int) + (n2 : Int) < 2 ^ 31 := by
    zify at hfit2
    exact hfit2
  have hw1 : targetOrdinal sizes r1 n1 =
      (r1 : Int) * (globalMaxSize sizes : Int) + (n1 : Int) := by
    rw [targetOrdinal, intWrap_eq_self _
      (add_nonneg (mul_nonneg (Int.natCast_nonneg r1)
        (Int.natCast_nonneg (globalMaxSize sizes))) (Int.natCast_nonneg n1)) hb1]
  have hw2 : targetOrdinal sizes r2 n2 =
      (r2 : Int) * (globalMaxSize sizes : Int) + (n2 : Int) := by
    rw [targetOrdinal, intWrap_eq_self _
      (add_nonneg (mul_nonneg (Int.natCast_nonneg r2)
        (Int.natCast_nonneg (globalMaxSize sizes))) (Int.natCast_nonneg n2)) hb2]
  refine ⟨by simp [computePointOrdinals], ?_, ?_⟩
  · rw [computePointOrdinals, getD_map_range _ _ _ h1, hw1]
  · intro heq
    rw [hw1, hw2] at heq
    have hnat : r1 * globalMaxSize sizes + n1 = r2 * globalMaxSize sizes + n2 := by
      exact_mod_cast heq
    have hGpos : 0 < globalMaxSize sizes := by omega
    have hr : r1 = r2 := by
      have e1 : (globalMaxSize sizes * r1 + n1) / globalMaxSize sizes = r1 := by
        rw [Nat.mul_add_div hGpos, Nat.div_eq_of_lt hG1]
        omega
      have e2 : (globalMaxSize sizes * r2 + n2) / globalMaxSize sizes = r2 := by
        rw [Nat.mul_add_div hGpos, Nat.div_eq_of_lt hG2]
        omega
      rw [Nat.mul_comm r1, Nat.mul_comm r2] at hnat
      rw [← e1, ← e2, hnat]
    subst hr
    have hn : n1 = n2 := by
      have := Nat.add_left_cancel hnat
      exact this
    exact hne ⟨rfl, hn⟩

/-- Witness for the amended C5: with local counts 2 and 1 the maximum is 2;
rank 0 point 1 gets ordinal 1 and rank 1 point 0 gets ordinal 2, both far
inside the int range. -/
theorem C5_target_ordinals_unique_within_int_range_witness :
    (computePointOrdinals [2, 1] 0).length = List.getD [2, 1] 0 0 ∧
    (computePointOrdinals [2, 1] 0).getD 1 0 =
      (0 : Int) * (globalMaxSize [2, 1] : Int) + (1 : Int) ∧
    targetOrdinal [2, 1] 0 1 ≠ targetOrdinal [2, 1] 1 0 :=
  C5_target_ordinals_unique_within_int_range [2, 1] 0 1 1 0 (by decide)
    (by decide) (by decide) (by decide) (by decide)

/-- C6: elementsContainingPoints sizes both outputs to the blocked point
count size / dimension and, per point, records the confirmed element ordinal
together with its source proc from the element-to-source-proc map, or the
invalid ordinal ordinalMax together with source proc -1 when the tree search
confirms nothing. -/
theorem C6_elements_containing_points (dim : Nat)
    (findPoint : List ℚ → Option Int) (srcProcOf : Int → Int)
    (coords : List ℚ) (n : Nat) (hn : n < coords.length / dim) :
    (elementsContainingPoints dim findPoint srcProcOf coords).1.length =
      coords.length / dim ∧
    (elementsContainingPoints dim findPoint srcProcOf coords).2.length =
      coords.length / dim ∧
    (∀ e, findPoint (pointAt dim coords (coords.length / dim) n) = some e →
      (elementsContainingPoints dim findPoint srcProcOf coords).1.getD n 0 = e ∧
      (elementsContainingPoints dim findPoint srcProcOf coords).2.getD n 0 =
        srcProcOf e) ∧
    (findPoint (pointAt dim coords (coords.length / dim) n) = none →
      (elementsContainingPoints dim findPoint srcProcOf coords).1.getD n 0 =
        ordinalMax ∧
      (elementsContainingPoints dim findPoint srcProcOf coords).2.getD n 0 =
        -1) := by
  refine ⟨by simp [elementsContainingPoints], by simp [elementsContainingPoints],
    fun e he => ?_, fun he => ?_⟩
  · constructor
    · rw [elementsContainingPoints, getD_map_range _ _ _ hn, he]
    · rw [elementsContainingPoints, getD_map_range _ _ _ hn, he]
  · constructor
    · rw [elementsContainingPoints, getD_map_range _ _ _ hn, he]
    · rw [elementsContainingPoints, getD_map_range _ _ _ hn, he]

/-- Witness for C6 with two one-dimensional points: the point at 0 is
confirmed in element 3 with source proc 9, the point at 5 misses. -/
theorem C6_elements_containing_points_witness :
    ((elementsContainingPoints 1 fpA spA [0, 5]).1.length =
      List.length [(0 : ℚ), 5] / 1 ∧
    (elementsContainingPoints 1 fpA spA [0, 5]).2.length =
      List.length [(0 : ℚ), 5] / 1 ∧
    (∀ e, fpA (pointAt 1 [0, 5] (List.length [(0 : ℚ), 5] / 1) 0) = some e →
      (elementsContainingPoints 1 fpA spA [0, 5]).1.getD 0 0 = e ∧
      (elementsContainingPoints 1 fpA spA [0, 5]).2.getD 0 0 = spA e) ∧
    (fpA (pointAt 1 [0, 5] (List.length [(0 : ℚ), 5] / 1) 0) = none →
      (elementsContainingPoints 1 fpA spA [0, 5]).1.getD 0 0 = ordinalMax ∧
      (elementsContainingPoints 1 fpA spA [0, 5]).2.getD 0 0 = -1)) :=
  C6_elements_containing_points 1 fpA spA [0, 5] 0 (by norm_num)

/-- C7: after the source-side tail of setup, d_source_elements holds one
entry per received pair and d_target_coords holds coordDim rationals per
pair, so the element count equals the coordinate count divided by the
dimension. -/
theorem C7_plan_array_sizes (coordDim : Nat) (importedElements : List Int)
    (coordAt : Nat → ℚ) (h : 0 < coordDim) :
    (finishSourcePlan coordDim importedElements coordAt).sourceElements.length =
      (finishSourcePlan coordDim importedElements coordAt).targetCoords.length /
        coordDim := by
  simp only [finishSourcePlan, List.length_map, List.length_range]
  rw [Nat.mul_div_cancel _ h]

/-- Witness for C7 with two received elements in three dimensions. -/
theorem C7_plan_array_sizes_witness :
    (finishSourcePlan 3 [4, 5] (fun _ => 0)).sourceElements.length =
      (finishSourcePlan 3 [4, 5] (fun _ => 0)).targetCoords.length / 3 :=
  C7_plan_array_sizes 3 [4, 5] (fun _ => 0) (by norm_num)

/-- C8: apply zeroes the whole target buffer before the export writes into
it, so every slot the source-to-target plan does not write — in particular
the slot of a missed or unmapped point — reads exactly zero afterwards, and
the buffer keeps its length. -/
theorem C8_unwritten_slots_are_zero (st : MapState)
    (evalF : List Int → List ℚ → List ℚ) (target : List ℚ) (s : Nat)
    (hw : s ∉ st.exportPlan.map Prod.snd) :
    (applyShared st evalF target).2.getD s 0 = 0 ∧
    (applyShared st evalF target).2.length = target.length := by
  constructor
  · show (doExportInsert st.exportPlan _ _).getD s 0 = 0
    rw [doExportInsert_getD_not_written _ _ _ _ hw, getD_replicate_zero]
  · show (doExportInsert st.exportPlan _ _).length = _
    rw [doExportInsert_length, List.length_replicate]

/-- Witness for C8: slot 2 is not written by the plan of stC8 and reads
zero. -/
theorem C8_unwritten_slots_are_zero_witness :
    (applyShared stC8 (fun _ _ => [5]) [3, 4, 5]).2.getD 2 0 = 0 ∧
    (applyShared stC8 (fun _ _ => [5]) [3, 4, 5]).2.length =
      List.length [(3 : ℚ), 4, 5] :=
  C8_unwritten_slots_are_zero stC8 (fun _ _ => [5]) [3, 4, 5] 2 (by decide)

/-- C9: apply assigns no member of the map, so a second apply with the same
pure evaluator sees the identical plan; and because apply zeroes the buffer
and rebuilds it purely from the plan and the evaluations, the second call
returns a target buffer bitwise identical to the first. -/
theorem C9_apply_idempotent (st : MapState)
    (evalF : List Int → List ℚ → List ℚ) (target : List ℚ) :
    (applyShared st evalF target).1 = st ∧
    (applyShared st evalF ((applyShared st evalF target).2)).2 =
      (applyShared st evalF target).2 := by
  refine ⟨rfl, ?_⟩
  show doExportInsert st.exportPlan _
      (List.replicate (doExportInsert st.exportPlan _
        (List.replicate target.length 0)).length 0) = _
  rw [doExportInsert_length, List.length_replicate]
  rfl

/-- C10: building the rendezvous engine with a non-null mesh manager
overwrites the stored global box with the enlarged box, so getBox afterwards
returns the enlarged box: each lower face below the dimension is strictly
decreased and each matching upper face strictly increased, hence the observed
box is never the box passed to the constructor. -/
theorem C10_build_overwrites_global_box (st : RendezvousState)
    (boxVolume numElems : ℚ) (hdim : 0 < st.dimension) (hdim3 : st.dimension ≤ 3)
    (hratio : 0 ≤ boxVolume / numElems) :
    getBox (buildBoxState true boxVolume numElems st) =
      enlargedBox st.dimension boxVolume numElems st.globalBox ∧
    getBox (buildBoxState true boxVolume numElems st) 0 < st.globalBox 0 ∧
    st.globalBox 3 < getBox (buildBoxState true boxVolume numElems st) 3 ∧
    getBox (buildBoxState true boxVolume numElems st) ≠ st.globalBox := by
  have hshift : 0 < typicalLength (boxVolume / numElems) st.dimension + tolExpand := by
    have h1 : 0 ≤ typicalLength (boxVolume / numElems) st.dimension :=
      pow_nonneg hratio _
    have h2 : (0 : ℚ) < tolExpand := by norm_num [tolExpand]
    linarith
  have hbox : getBox (buildBoxState true boxVolume numElems st) =
      enlargedBox st.dimension boxVolume numElems st.globalBox := rfl
  have hlo : getBox (buildBoxState true boxVolume numElems st) 0 < st.globalBox 0 := by
    rw [hbox]
    simp only [enlargedBox, expandBounds, if_pos hdim]
    linarith
  refine ⟨hbox, hlo, ?_, ?_⟩
  · rw [hbox]
    simp only [enlargedBox, expandBounds]
    rw [if_neg (by omega : ¬ (3 : Nat) < st.dimension),
        if_pos (by omega : 3 ≤ 3 ∧ 3 < 3 + st.dimension)]
    linarith
  · intro h
    have := congrFun h 0
    rw [hbox] at this
    simp only [enlargedBox, expandBounds, if_pos hdim] at this
    linarith

/-- Witness for C10 at a concrete engine state and mesh size. -/
theorem C10_build_overwrites_global_box_witness :
    getBox (buildBoxState true 16 4 rvStA) =
      enlargedBox rvStA.dimension 16 4 rvStA.globalBox ∧
    getBox (buildBoxState true 16 4 rvStA) 0 < rvStA.globalBox 0 ∧
    rvStA.globalBox 3 < getBox (buildBoxState true 16 4 rvStA) 3 ∧
    getBox (buildBoxState true 16 4 rvStA) ≠ rvStA.globalBox :=
  C10_build_overwrites_global_box rvStA 16 4 (by norm_num [rvStA])
    (by norm_num [rvStA]) (by norm_num)

end DTK
